import Mathlib

/-! yeast: the Emacs bridge (`src/interface.c`) and `yeast_make_parser` (`src/parser.c`)

The C functions are embedded as Lean functions over an explicit `State`
(the file-level globals of `interface.c` plus the trace of the calls made
into the Emacs environment).  The Emacs module API (`emacs-module.h`) is
external to the repository; its entry points are modelled after the
documented behaviour of the module API on a 64-bit (LP64) platform.
-/

namespace Yeast

/-! ## Emacs values and the module API -/

/-- Lisp objects reachable through an `emacs_value`. -/
inductive emacs_value where
  | symbol (name : String)
  | integer (n : Int)
  | string (chars : List Char)
  | cons (car cdr : emacs_value)
  | user_ptr (p : Nat)
  deriving DecidableEq, Repr

open emacs_value

/-- The part of `emacs_env` whose behaviour belongs to the host alone:
`funcall` gives the value the host returns when the Lisp function `func` is
applied to `args`. -/
structure emacs_env where
  funcall : emacs_value → List emacs_value → emacs_value

/-- A call into the host that can run Lisp code or raise a non-local exit. -/
inductive Event where
  | funcall (func : emacs_value) (args : List emacs_value)
  | non_local_exit_signal (sym data : emacs_value)
  deriving DecidableEq, Repr

/-- The globals of `interface.c` (lines 13-25). -/
structure Globals where
  em_nil : emacs_value
  em_t : emacs_value
  em_stringp : emacs_value
  em_symbolp : emacs_value
  em_yeast_instance_p : emacs_value
  em_unknown_language : emacs_value
  em_json : emacs_value
  em_python : emacs_value
  _buffer_size : emacs_value
  _buffer_substring : emacs_value
  _cons : emacs_value
  _defalias : emacs_value
  _point_min : emacs_value
  _point_max : emacs_value
  _provide : emacs_value
  _user_ptrp : emacs_value
  _wrong_type_argument : emacs_value
  deriving DecidableEq, Repr

/-- Program state: the globals and the calls made into the host so far
(oldest first). -/
structure State where
  globals : Globals
  trace : List Event
  deriving DecidableEq, Repr

/-- `env->intern`: the symbol with the given name. -/
def intern (_env : emacs_env) (name : String) : emacs_value := symbol name

/-- `env->make_global_ref`: a reference to the same object. -/
def make_global_ref (_env : emacs_env) (val : emacs_value) : emacs_value := val

/-- `env->is_not_nil`. -/
def is_not_nil (_env : emacs_env) (val : emacs_value) : Bool :=
  decide (val ≠ symbol "nil")

/-- `env->make_integer`, whose parameter is an `intmax_t`. -/
def make_integer (_env : emacs_env) (n : Int) : emacs_value := integer n

/-- `env->extract_integer`: the `intmax_t` value of a Lisp integer; for any
other object the call fails and returns 0. -/
def extract_integer (_env : emacs_env) (val : emacs_value) : Int :=
  match val with
  | integer n => n
  | _ => 0

/-- `env->non_local_exit_signal`. -/
def non_local_exit_signal (_env : emacs_env) (sym data : emacs_value) (s : State) : State :=
  { s with trace := s.trace ++ [Event.non_local_exit_signal sym data] }

/-- UTF-8 encoding of one character, as byte values. -/
def utf8_encode (c : Char) : List Nat :=
  let n := c.toNat
  if n < 0x80 then [n]
  else if n < 0x800 then [0xC0 + n / 0x40, 0x80 + n % 0x40]
  else if n < 0x10000 then [0xE0 + n / 0x1000, 0x80 + n / 0x40 % 0x40, 0x80 + n % 0x40]
  else [0xF0 + n / 0x40000, 0x80 + n / 0x1000 % 0x40, 0x80 + n / 0x40 % 0x40, 0x80 + n % 0x40]

/-- UTF-8 encoding of a Lisp string. -/
def utf8_bytes (chars : List Char) : List Nat :=
  chars.flatMap utf8_encode

/-- Storing `bytes` at the start of the memory `buffer` points to. -/
def store (buffer bytes : List Nat) : List Nat :=
  bytes ++ buffer.drop bytes.length

/-- `env->copy_string_contents (env, value, buffer, &size)`.  `buffer` is
`none` for a NULL pointer, otherwise the memory it points to; `size` is the
value of `*size` on entry.  The result is the returned flag, the memory
afterwards and `*size` afterwards.  For a string the required size is the
length of its UTF-8 encoding plus one for the terminating NUL; for any
other object the call fails and touches nothing. -/
def copy_string_contents (_env : emacs_env) (value : emacs_value)
    (buffer : Option (List Nat)) (size : Int) : Bool × Option (List Nat) × Int :=
  match value with
  | string chars =>
    let required : Int := (utf8_bytes chars).length + 1
    match buffer with
    | none => (true, none, required)
    | some mem =>
      if size < required then (false, some mem, required)
      else (true, some (store mem (utf8_bytes chars ++ [0])), required)
  | _ => (false, buffer, size)

/-! ## `interface.c` -/

def GLOBREF (env : emacs_env) (val : emacs_value) : emacs_value := make_global_ref env val

def INTERN (env : emacs_env) (val : String) : emacs_value := intern env val

/-- `em_init` (interface.c:27-51). -/
def em_init (env : emacs_env) (s : State) : State :=
  { s with globals :=
    { em_nil := GLOBREF env (INTERN env "nil")
      em_t := GLOBREF env (INTERN env "t")
      em_stringp := GLOBREF env (INTERN env "stringp")
      em_symbolp := GLOBREF env (INTERN env "symbolp")
      em_yeast_instance_p := GLOBREF env (INTERN env "yeast-instance-p")
      em_unknown_language := GLOBREF env (INTERN env "unknown-language")
      em_json := GLOBREF env (INTERN env "json")
      em_python := GLOBREF env (INTERN env "python")
      _buffer_size := GLOBREF env (INTERN env "buffer-size")
      _buffer_substring := GLOBREF env (INTERN env "buffer-substring")
      _cons := GLOBREF env (INTERN env "cons")
      _defalias := GLOBREF env (INTERN env "defalias")
      _point_min := GLOBREF env (INTERN env "point-min")
      _point_max := GLOBREF env (INTERN env "point-max")
      _provide := GLOBREF env (INTERN env "provide")
      _user_ptrp := GLOBREF env (INTERN env "user-ptrp")
      _wrong_type_argument := GLOBREF env (INTERN env "wrong-type-argument") } }

/-- `em_funcall` (interface.c:60-71); the variadic arguments are the list
`args`, `nargs` its length. -/
def em_funcall (env : emacs_env) (func : emacs_value) (args : List emacs_value)
    (s : State) : emacs_value × State :=
  (env.funcall func args, { s with trace := s.trace ++ [Event.funcall func args] })

/-- `em_cons` (interface.c:100-103). -/
def em_cons (env : emacs_env) (car cdr : emacs_value) (s : State) : emacs_value × State :=
  em_funcall env s.globals._cons [car, cdr] s

/-- `em_signal_wrong_type` (interface.c:81-87). -/
def em_signal_wrong_type (env : emacs_env) (expected actual : emacs_value) (s : State) : State :=
  let r1 := em_cons env actual s.globals.em_nil s
  let r2 := em_cons env expected r1.1 r1.2
  non_local_exit_signal env r2.2.globals._wrong_type_argument r2.1 r2.2

/-- `em_assert_type` (interface.c:73-79). -/
def em_assert_type (env : emacs_env) (predicate arg : emacs_value) (s : State) : Bool × State :=
  let r := em_funcall env predicate [arg] s
  let cond := is_not_nil env r.1
  if !cond then (cond, em_signal_wrong_type env predicate arg r.2)
  else (cond, r.2)

/-- `em_buffer_size` (interface.c:110-113).  The `intmax_t` result of
`extract_integer` is converted to the `uint32_t` return type. -/
def em_buffer_size (env : emacs_env) (s : State) : Nat × State :=
  let r := em_funcall env s.globals._buffer_size [] s
  ((extract_integer env r.1 % 2 ^ 32).toNat, r.2)

/-- `em_buffer_contents` (interface.c:115-132).  `offset` and `nchars` are
`uint32_t`, so `offset + 1` and `offset + nchars + 1` are computed modulo
2^32.  `buffer` is the memory the caller's pointer refers to.  `nbytes0` is
the indeterminate value the local `nbytes` holds before the first
`copy_string_contents` call, whose returned flag the code ignores.  The
test `nbytes - 1 != nchars` is evaluated in the 64-bit `ptrdiff_t`, which
holds every `uint32_t`, so it compares the mathematical values.  The
result is the returned flag, the caller's memory afterwards and the state. -/
def em_buffer_contents (env : emacs_env) (offset nchars : Nat) (buffer : List Nat)
    (nbytes0 : Int) (s : State) : Bool × List Nat × State :=
  let r := em_funcall env s.globals._buffer_substring
    [make_integer env (((offset + 1) % 2 ^ 32 : Nat) : Int),
     make_integer env (((offset + nchars + 1) % 2 ^ 32 : Nat) : Int)] s
  let string := r.1
  let c1 := copy_string_contents env string none nbytes0
  let nbytes := c1.2.2
  if nbytes - 1 ≠ (nchars : Int) then (false, buffer, r.2)
  else
    let c2 := copy_string_contents env string (some buffer) nbytes
    (true, (c2.2.1).getD buffer, r.2)

/-! ## `parser.c` -/

/-- Modelled from the spec: the macro `YEAST_ASSERT_SYMBOL`, which
`parser.c` uses and whose header is not among the sources.  Following
"`assert_type(value, predicate) -> bool` (used to validate language
identifiers ... before they cross into core logic)" and "it always returns
control to the host immediately after signaling", it checks the value with
`em_assert_type` against `em_symbolp` and, when the check fails, makes the
enclosing function return `em_nil` at once (`some em_nil`); otherwise the
function goes on (`none`). -/
def YEAST_ASSERT_SYMBOL (env : emacs_env) (val : emacs_value) (s : State) :
    Option emacs_value × State :=
  let r := em_assert_type env s.globals.em_symbolp val s
  if !r.1 then (some r.2.globals.em_nil, r.2) else (none, r.2)

/-- The function `yeast_make_parser` (parser.c:7-11), written here with the
suffix `_fn`: the type check, then `return em_nil`. -/
def yeast_make_parser_fn (env : emacs_env) (language : emacs_value) (s : State) :
    emacs_value × State :=
  let a := YEAST_ASSERT_SYMBOL env language s
  match a.1 with
  | some ret => (ret, a.2)
  | none => (a.2.globals.em_nil, a.2)

/-! ## Hosts used for concrete evaluation -/

/-- A host whose `buffer-size` and `buffer-substring` answer with a fixed
`reply`, with the usual `cons` and `symbolp`. -/
def reply_host (reply : emacs_value) : emacs_env where
  funcall func args :=
    match func, args with
    | symbol "cons", [a, d] => cons a d
    | symbol "symbolp", [symbol _] => symbol "t"
    | symbol "buffer-size", [] => reply
    | symbol "buffer-substring", [_, _] => reply
    | _, _ => symbol "nil"

/-- A host editing a buffer with the given text: `buffer-size` is its
length in characters and `buffer-substring` takes 1-based positions.  For
positions outside the buffer the call fails (`args-out-of-range`) and
`funcall` hands back a value that is not a string. -/
def buffer_host (text : List Char) : emacs_env where
  funcall func args :=
    match func, args with
    | symbol "cons", [a, d] => cons a d
    | symbol "symbolp", [symbol _] => symbol "t"
    | symbol "buffer-size", [] => integer text.length
    | symbol "buffer-substring", [integer b, integer e] =>
      if 1 ≤ b ∧ b ≤ e ∧ e ≤ text.length + 1 then
        string ((text.drop (b.toNat - 1)).take (e.toNat - b.toNat))
      else symbol "nil"
    | _, _ => symbol "nil"

/-- A state before `em_init` has run. -/
def state0 : State :=
  let z := symbol ""
  { globals := ⟨z, z, z, z, z, z, z, z, z, z, z, z, z, z, z, z, z⟩, trace := [] }

/-- The non-local exits raised in a trace, as pairs of error symbol and data. -/
def signals (trace : List Event) : List (emacs_value × emacs_value) :=
  trace.filterMap fun e =>
    match e with
    | Event.non_local_exit_signal sym data => some (sym, data)
    | Event.funcall _ _ => none

/-- The character U+00E9, whose UTF-8 encoding is the two bytes C3 A9. -/
def e_acute : Char := Char.ofNat 0xE9

/-! ## Basic facts -/

theorem em_init_trace (env : emacs_env) (s0 : State) :
    (em_init env s0).trace = s0.trace := rfl

/-- With a string reply, the flag of `em_buffer_contents` compares the
length of the UTF-8 encoding with `nchars`, and the caller's memory is
written only when they agree. -/
theorem em_buffer_contents_of_string (env : emacs_env) (offset nchars : Nat)
    (buffer : List Nat) (nbytes0 : Int) (s : State) (chars : List Char)
    (hreply : env.funcall s.globals._buffer_substring
      [integer (((offset + 1) % 2 ^ 32 : Nat) : Int),
       integer (((offset + nchars + 1) % 2 ^ 32 : Nat) : Int)] = string chars) :
    em_buffer_contents env offset nchars buffer nbytes0 s =
      if (utf8_bytes chars).length = nchars then
        (true, store buffer (utf8_bytes chars ++ [0]),
          { s with trace := s.trace ++ [Event.funcall s.globals._buffer_substring
            [integer (((offset + 1) % 2 ^ 32 : Nat) : Int),
             integer (((offset + nchars + 1) % 2 ^ 32 : Nat) : Int)]] })
      else
        (false, buffer,
          { s with trace := s.trace ++ [Event.funcall s.globals._buffer_substring
            [integer (((offset + 1) % 2 ^ 32 : Nat) : Int),
             integer (((offset + nchars + 1) % 2 ^ 32 : Nat) : Int)]] }) := by
  simp only [em_buffer_contents, em_funcall, make_integer, hreply, copy_string_contents]
  by_cases h : (utf8_bytes chars).length = nchars
  · simp [h]
  · have h2 : ((utf8_bytes chars).length : Int) + 1 - 1 ≠ (nchars : Int) := by omega
    simp [h, h2]

/-- With a reply that is not a string, both `copy_string_contents` calls
fail: the flag of `em_buffer_contents` is decided by the indeterminate
`nbytes0` alone and the caller's memory is never written. -/
theorem em_buffer_contents_of_failed_read (env : emacs_env) (offset nchars : Nat)
    (buffer : List Nat) (nbytes0 : Int) (s : State)
    (hreply : ∀ chars, env.funcall s.globals._buffer_substring
      [integer (((offset + 1) % 2 ^ 32 : Nat) : Int),
       integer (((offset + nchars + 1) % 2 ^ 32 : Nat) : Int)] ≠ string chars) :
    (em_buffer_contents env offset nchars buffer nbytes0 s).1
      = decide (nbytes0 - 1 = (nchars : Int)) ∧
    (em_buffer_contents env offset nchars buffer nbytes0 s).2.1 = buffer := by
  simp only [em_buffer_contents, em_funcall, make_integer]
  cases hv : env.funcall s.globals._buffer_substring
      [integer (((offset + 1) % 2 ^ 32 : Nat) : Int),
       integer (((offset + nchars + 1) % 2 ^ 32 : Nat) : Int)] with
  | string chars => exact absurd hv (hreply chars)
  | symbol name => by_cases h : nbytes0 - 1 = (nchars : Int) <;> simp [copy_string_contents, h]
  | integer n => by_cases h : nbytes0 - 1 = (nchars : Int) <;> simp [copy_string_contents, h]
  | cons a d => by_cases h : nbytes0 - 1 = (nchars : Int) <;> simp [copy_string_contents, h]
  | user_ptr q => by_cases h : nbytes0 - 1 = (nchars : Int) <;> simp [copy_string_contents, h]

/-- Once the check has passed, a symbol argument of `yeast_make_parser`
yields `em_nil`, with the `symbolp` call as the only call into the host. -/
theorem yeast_make_parser_of_symbol (env : emacs_env) (language : emacs_value) (s : State)
    (hsym : is_not_nil env (env.funcall s.globals.em_symbolp [language]) = true) :
    yeast_make_parser_fn env language s =
      (s.globals.em_nil,
        { s with trace := s.trace ++ [Event.funcall s.globals.em_symbolp [language]] }) := by
  simp [yeast_make_parser_fn, YEAST_ASSERT_SYMBOL, em_assert_type, em_funcall, hsym]

/-! ## The buffer bridge: `em_buffer_contents`, `em_buffer_size` -/

/-- C1 (the code departs from the claim): the buffer holds the single
character "a" and 2 characters are requested at offset 0.  The host cannot
supply them: `(buffer-substring 1 3)` fails and hands back no string, so
the first `copy_string_contents` fails too and `nbytes` keeps its
indeterminate value.  When that value is 3, `em_buffer_contents` returns
true, with the caller's memory unwritten, although the reply does not
contain 2 characters. -/
theorem em_buffer_contents_accepts_failed_read :
    (buffer_host [Char.ofNat 97]).funcall (symbol "buffer-substring") [integer 1, integer 3]
      = symbol "nil" ∧
    (copy_string_contents (buffer_host [Char.ofNat 97]) (symbol "nil") none 3)
      = (false, none, 3) ∧
    (em_buffer_contents (buffer_host [Char.ofNat 97]) 0 2 [7, 7, 7, 7] 3
      (em_init (buffer_host [Char.ofNat 97]) state0)).1 = true ∧
    (em_buffer_contents (buffer_host [Char.ofNat 97]) 0 2 [7, 7, 7, 7] 3
      (em_init (buffer_host [Char.ofNat 97]) state0)).2.1 = [7, 7, 7, 7] := by
  decide

/-- C2 (the code departs from the claim): the buffer holds the single
character U+00E9 and 1 character is requested at offset 0.  The host
replies with exactly that 1 character, yet `em_buffer_contents` returns
false and leaves the caller's memory as it was, because the encoding has 2
bytes. -/
theorem em_buffer_contents_rejects_multibyte (nbytes0 : Int) (s0 : State) :
    (buffer_host [e_acute]).funcall (symbol "buffer-substring") [integer 1, integer 2]
      = string [e_acute] ∧
    [e_acute].length = 1 ∧
    (em_buffer_contents (buffer_host [e_acute]) 0 1 [7, 7, 7, 7] nbytes0
      (em_init (buffer_host [e_acute]) s0)).1 = false ∧
    (em_buffer_contents (buffer_host [e_acute]) 0 1 [7, 7, 7, 7] nbytes0
      (em_init (buffer_host [e_acute]) s0)).2.1 = [7, 7, 7, 7] := by
  have h := em_buffer_contents_of_string (buffer_host [e_acute]) 0 1 [7, 7, 7, 7]
    nbytes0 (em_init (buffer_host [e_acute]) s0) [e_acute] rfl
  have hb : utf8_bytes [e_acute] = [0xC3, 0xA9] := by decide
  rw [h, hb]
  refine ⟨by decide, rfl, ?_, ?_⟩ <;> simp

/-- C3 (the claim as stated fails): for offset 2^32 - 2 and nchars 1, both
valid `uint32_t` values, the host is asked for start 2^32 - 1 and end 0, not
for end = offset + nchars + 1 = 2^32, and start is above end. -/
theorem em_buffer_contents_range_wraps :
    (em_buffer_contents (buffer_host []) 4294967294 1 [] 0
      (em_init (buffer_host []) state0)).2.2.trace
      = [Event.funcall (symbol "buffer-substring") [integer 4294967295, integer 0]] ∧
    (em_buffer_contents (buffer_host []) 4294967294 1 [] 0
      (em_init (buffer_host []) state0)).2.2.trace
      ≠ [Event.funcall (symbol "buffer-substring")
          [integer (4294967294 + 1), integer (4294967294 + 1 + 1)]] ∧
    ¬ ((4294967295 : Int) ≤ 0) := by
  decide

/-- C3 (amended): for every offset and nchars (both `uint32_t`),
`em_buffer_contents` makes one call into the host, `buffer-substring` with
start (offset + 1) mod 2^32 and end (offset + nchars + 1) mod 2^32; whenever
offset + nchars + 1 < 2^32 these are exactly offset + 1 and
offset + nchars + 1, the 1-based form of the 0-based range
[offset, offset + nchars), and start <= end. -/
theorem em_buffer_contents_range (env : emacs_env) (offset nchars : Nat)
    (buffer : List Nat) (nbytes0 : Int) (s0 : State)
    (hoffset : offset < 2 ^ 32) (hnchars : nchars < 2 ^ 32) :
    (em_buffer_contents env offset nchars buffer nbytes0 (em_init env s0)).2.2.trace
      = s0.trace ++ [Event.funcall (symbol "buffer-substring")
          [integer (((offset + 1) % 2 ^ 32 : Nat) : Int),
           integer (((offset + nchars + 1) % 2 ^ 32 : Nat) : Int)]] ∧
    (offset + nchars + 1 < 2 ^ 32 →
      (em_buffer_contents env offset nchars buffer nbytes0 (em_init env s0)).2.2.trace
        = s0.trace ++ [Event.funcall (symbol "buffer-substring")
            [integer ((offset : Int) + 1), integer ((offset : Int) + nchars + 1)]] ∧
      (offset + 1) % 2 ^ 32 ≤ (offset + nchars + 1) % 2 ^ 32) := by
  have key : (em_buffer_contents env offset nchars buffer nbytes0 (em_init env s0)).2.2.trace
      = s0.trace ++ [Event.funcall (symbol "buffer-substring")
          [integer (((offset + 1) % 2 ^ 32 : Nat) : Int),
           integer (((offset + nchars + 1) % 2 ^ 32 : Nat) : Int)]] := by
    simp only [em_buffer_contents, em_funcall, make_integer]
    split <;> rfl
  refine ⟨key, fun hfit => ?_⟩
  have h1 : (offset + 1) % 2 ^ 32 = offset + 1 := Nat.mod_eq_of_lt (by omega)
  have h2 : (offset + nchars + 1) % 2 ^ 32 = offset + nchars + 1 := Nat.mod_eq_of_lt hfit
  refine ⟨?_, by omega⟩
  rw [key, h1, h2]
  push_cast
  rfl

/-- Witness for C3 (amended): offset 3 and nchars 5 ask for positions 4 and
9; offset 2^32 - 1 and nchars 0 ask for positions 0 and 0. -/
theorem em_buffer_contents_range_witness :
    (3 + 5 + 1 < 2 ^ 32 ∧
     (em_buffer_contents (buffer_host []) 3 5 [] 0 (em_init (buffer_host []) state0)).2.2.trace
       = state0.trace ++ [Event.funcall (symbol "buffer-substring")
           [integer ((3 : Nat) + 1), integer ((3 : Nat) + (5 : Nat) + 1)]]) ∧
    (em_buffer_contents (buffer_host []) 4294967295 0 [] 0
      (em_init (buffer_host []) state0)).2.2.trace
      = state0.trace ++ [Event.funcall (symbol "buffer-substring")
          [integer (((4294967295 + 1) % 2 ^ 32 : Nat) : Int),
           integer (((4294967295 + 0 + 1) % 2 ^ 32 : Nat) : Int)]] :=
  ⟨⟨by decide,
    ((em_buffer_contents_range (buffer_host []) 3 5 [] 0 state0 (by decide) (by decide)).2
      (by decide)).1⟩,
   (em_buffer_contents_range (buffer_host []) 4294967295 0 [] 0 state0
      (by decide) (by decide)).1⟩

/-- C8 (the claim as stated fails): a host buffer of 2^32 characters is
reported by `em_buffer_size` as 0. -/
theorem em_buffer_size_wraps :
    (reply_host (integer 4294967296)).funcall (symbol "buffer-size") [] = integer 4294967296 ∧
    (em_buffer_size (reply_host (integer 4294967296))
      (em_init (reply_host (integer 4294967296)) state0)).1 = 0 ∧
    (em_buffer_size (reply_host (integer 4294967296))
      (em_init (reply_host (integer 4294967296)) state0)).1 ≠ 4294967296 := by
  decide

/-- C8 (amended): when the host's `buffer-size` reports the nonnegative
length n, `em_buffer_size` returns n mod 2^32; it returns n itself,
unchanged, whenever n < 2^32. -/
theorem em_buffer_size_spec (env : emacs_env) (s0 : State) (n : Int)
    (hreply : env.funcall (symbol "buffer-size") [] = integer n)
    (hnonneg : 0 ≤ n) :
    ((em_buffer_size env (em_init env s0)).1 : Int) = n % 2 ^ 32 ∧
    (n < 2 ^ 32 → ((em_buffer_size env (em_init env s0)).1 : Int) = n) := by
  have hv : (em_buffer_size env (em_init env s0)).1 = (n % 2 ^ 32).toNat := by
    simp only [em_buffer_size, em_funcall]
    show (extract_integer env (env.funcall (symbol "buffer-size") []) % 2 ^ 32).toNat = _
    rw [hreply]
    rfl
  have hpos : (0 : Int) ≤ n % 2 ^ 32 := Int.emod_nonneg n (by norm_num)
  have hcast : ((em_buffer_size env (em_init env s0)).1 : Int) = n % 2 ^ 32 := by
    rw [hv]
    exact Int.toNat_of_nonneg hpos
  refine ⟨hcast, fun hfit => ?_⟩
  rw [hcast]
  exact Int.emod_eq_of_lt hnonneg hfit

/-- Witness for C8 (amended): a buffer of three characters has size 3, and
a reported length of 2^32 + 5 comes back as 5. -/
theorem em_buffer_size_spec_witness :
    ((em_buffer_size (buffer_host [Char.ofNat 97, Char.ofNat 98, Char.ofNat 99])
      (em_init (buffer_host [Char.ofNat 97, Char.ofNat 98, Char.ofNat 99]) state0)).1 : Int) = 3 ∧
    ((em_buffer_size (reply_host (integer 4294967301))
      (em_init (reply_host (integer 4294967301)) state0)).1 : Int) = 4294967301 % 2 ^ 32 :=
  ⟨(em_buffer_size_spec (buffer_host [Char.ofNat 97, Char.ofNat 98, Char.ofNat 99]) state0 3
      rfl (by decide)).2 (by decide),
   (em_buffer_size_spec (reply_host (integer 4294967301)) state0 4294967301
      rfl (by decide)).1⟩

/-- C9: `em_signal_wrong_type` makes three calls into the host, in this
order: cons(actual, nil), cons(expected, that cell), and one
`non_local_exit_signal` whose error symbol is `wrong-type-argument` and
whose data is the second cell; with a host whose `cons` builds pairs the
data is the two-element list (expected actual). -/
theorem em_signal_wrong_type_spec (env : emacs_env) (expected actual : emacs_value) (s0 : State)
    (hcons : ∀ a d, env.funcall (symbol "cons") [a, d] = cons a d) :
    (em_signal_wrong_type env expected actual (em_init env s0)).trace
      = s0.trace ++
        [Event.funcall (symbol "cons") [actual, symbol "nil"],
         Event.funcall (symbol "cons")
           [expected, env.funcall (symbol "cons") [actual, symbol "nil"]],
         Event.non_local_exit_signal (symbol "wrong-type-argument")
           (env.funcall (symbol "cons")
             [expected, env.funcall (symbol "cons") [actual, symbol "nil"]])] ∧
    signals (em_signal_wrong_type env expected actual (em_init env s0)).trace
      = signals s0.trace ++
        [(symbol "wrong-type-argument", cons expected (cons actual (symbol "nil")))] ∧
    (em_signal_wrong_type env expected actual (em_init env s0)).globals
      = (em_init env s0).globals := by
  refine ⟨?_, ?_, rfl⟩
  · simp [em_signal_wrong_type, em_cons, em_funcall, non_local_exit_signal, em_init,
      GLOBREF, INTERN, intern, make_global_ref]
  · simp [em_signal_wrong_type, em_cons, em_funcall, non_local_exit_signal, em_init,
      GLOBREF, INTERN, intern, make_global_ref, signals, hcons]

/-- Witness for C9: expected `stringp`, actual 5. -/
theorem em_signal_wrong_type_spec_witness :
    signals (em_signal_wrong_type (buffer_host []) (symbol "stringp") (integer 5)
      (em_init (buffer_host []) state0)).trace
      = signals state0.trace ++
        [(symbol "wrong-type-argument",
          cons (symbol "stringp") (cons (integer 5) (symbol "nil")))] :=
  (em_signal_wrong_type_spec (buffer_host []) (symbol "stringp") (integer 5) state0
    (fun _ _ => rfl)).2.1

/-- C7: `em_assert_type` returns true exactly when the host's application
of the predicate to the value is non-nil; it raises nothing when it returns
true and raises exactly one non-local exit, `wrong-type-argument`, when it
returns false. -/
theorem em_assert_type_spec (env : emacs_env) (predicate arg : emacs_value) (s0 : State) :
    ((em_assert_type env predicate arg (em_init env s0)).1 = true
      ↔ is_not_nil env (env.funcall predicate [arg]) = true) ∧
    ((em_assert_type env predicate arg (em_init env s0)).1 = true
      ↔ env.funcall predicate [arg] ≠ symbol "nil") ∧
    signals (em_assert_type env predicate arg (em_init env s0)).2.trace
      = signals s0.trace ++
        (if (em_assert_type env predicate arg (em_init env s0)).1 then []
         else [(symbol "wrong-type-argument",
                env.funcall (symbol "cons")
                  [predicate, env.funcall (symbol "cons") [arg, symbol "nil"]])]) := by
  by_cases h : env.funcall predicate [arg] = symbol "nil"
  · simp [em_assert_type, em_funcall, is_not_nil, h, em_signal_wrong_type, em_cons,
      non_local_exit_signal, em_init, GLOBREF, INTERN, intern, make_global_ref, signals]
  · simp [em_assert_type, em_funcall, is_not_nil, h, em_init, signals]

/-! ## `yeast_make_parser` -/

/-- C6: for an argument on which the host's `symbolp` yields nil,
`yeast_make_parser` calls `symbolp`, builds the list (symbolp argument),
raises `wrong-type-argument` with it and returns nil at once: the signal is
the last call it makes, the globals are unchanged and nothing else is
created. -/
theorem yeast_make_parser_wrong_type (env : emacs_env) (arg : emacs_value) (s0 : State)
    (hnot : env.funcall (symbol "symbolp") [arg] = symbol "nil") :
    yeast_make_parser_fn env arg (em_init env s0) =
      (symbol "nil",
        { globals := (em_init env s0).globals
          trace := s0.trace ++
            [Event.funcall (symbol "symbolp") [arg],
             Event.funcall (symbol "cons") [arg, symbol "nil"],
             Event.funcall (symbol "cons")
               [symbol "symbolp", env.funcall (symbol "cons") [arg, symbol "nil"]],
             Event.non_local_exit_signal (symbol "wrong-type-argument")
               (env.funcall (symbol "cons")
                 [symbol "symbolp", env.funcall (symbol "cons") [arg, symbol "nil"]])] }) := by
  simp [yeast_make_parser_fn, YEAST_ASSERT_SYMBOL, em_assert_type, em_funcall, is_not_nil,
    em_signal_wrong_type, em_cons, non_local_exit_signal, em_init, GLOBREF, INTERN, intern,
    make_global_ref, hnot]

/-- Witness for C6: the integer 5 is not a symbol. -/
theorem yeast_make_parser_wrong_type_witness :
    yeast_make_parser_fn (buffer_host []) (integer 5) (em_init (buffer_host []) state0) =
      (symbol "nil",
        { globals := (em_init (buffer_host []) state0).globals
          trace := state0.trace ++
            [Event.funcall (symbol "symbolp") [integer 5],
             Event.funcall (symbol "cons") [integer 5, symbol "nil"],
             Event.funcall (symbol "cons")
               [symbol "symbolp",
                (buffer_host []).funcall (symbol "cons") [integer 5, symbol "nil"]],
             Event.non_local_exit_signal (symbol "wrong-type-argument")
               ((buffer_host []).funcall (symbol "cons")
                 [symbol "symbolp",
                  (buffer_host []).funcall (symbol "cons") [integer 5, symbol "nil"]])] }) :=
  yeast_make_parser_wrong_type (buffer_host []) (integer 5) state0 rfl

/-- C4 (the code departs from the claim): `ruby` is a symbol and neither
`json` nor `python`; `yeast_make_parser` returns nil after the `symbolp`
call alone and raises no non-local exit, so no `unknown-language` error
reaches the host. -/
theorem yeast_make_parser_unknown_language_silent :
    symbol "ruby" ≠ (em_init (buffer_host []) state0).globals.em_json ∧
    symbol "ruby" ≠ (em_init (buffer_host []) state0).globals.em_python ∧
    is_not_nil (buffer_host []) ((buffer_host []).funcall (symbol "symbolp") [symbol "ruby"])
      = true ∧
    yeast_make_parser_fn (buffer_host []) (symbol "ruby") (em_init (buffer_host []) state0) =
      (symbol "nil",
        { globals := (em_init (buffer_host []) state0).globals
          trace := [Event.funcall (symbol "symbolp") [symbol "ruby"]] }) ∧
    signals (yeast_make_parser_fn (buffer_host []) (symbol "ruby")
      (em_init (buffer_host []) state0)).2.trace = [] := by
  decide

/-- C5 (the code departs from the claim): for the supported languages
`json` and `python`, `yeast_make_parser` returns `em_nil`, the symbol nil,
and no parser object. -/
theorem yeast_make_parser_supported_returns_nil :
    (yeast_make_parser_fn (buffer_host []) (em_init (buffer_host []) state0).globals.em_json
      (em_init (buffer_host []) state0)).1 = symbol "nil" ∧
    (yeast_make_parser_fn (buffer_host []) (em_init (buffer_host []) state0).globals.em_python
      (em_init (buffer_host []) state0)).1 = symbol "nil" ∧
    (yeast_make_parser_fn (buffer_host []) (em_init (buffer_host []) state0).globals.em_json
      (em_init (buffer_host []) state0)).2.trace
      = [Event.funcall (symbol "symbolp") [symbol "json"]] ∧
    (yeast_make_parser_fn (buffer_host []) (em_init (buffer_host []) state0).globals.em_python
      (em_init (buffer_host []) state0)).2.trace
      = [Event.funcall (symbol "symbolp") [symbol "python"]] := by
  decide

end Yeast
